import Mathlib

/-!
Verification of the xepor routing/dispatch layer (`src/xepor/xepor.py`).

The Python source is shallowly embedded: mutation of the mitmproxy flow
object becomes explicit state passing (`Flow → ... × Flow`), raised
exceptions become `Except` values, and the handler registry is a plain
list in registration order, as in the source.

The external `parse` library (template compilation and matching) and the
small mitmproxy URL helpers (`parse_authority`, `default_port`,
`pretty_host`, `urlparse`) are not part of the repository source; they
are modelled from the specification's description of them and marked as
such in their doc comments.
-/

namespace Xepor

/-- A segment of a compiled path template: a literal character, a named
placeholder `{name}`, or an unnamed placeholder. -/
inductive Seg
  | lit (c : Char)
  | named (n : String)
  | unnamed
deriving DecidableEq, Repr

/-- A compiled path template is a sequence of segments. -/
abbrev Pat := List Seg

/-- A capture list: each placeholder yields one captured substring, with
the placeholder's name when it has one. -/
abbrev CapList := List (Option String × String)

/-- Modelled from the spec: one placeholder step of the `parse` library's
matcher (the `parse` library is an external dependency, not in src).
Per §4.1 a placeholder matches one or more non-separator characters
greedily, so candidate capture lengths are tried longest first; `k` is
the continuation matching the remaining segments. -/
def phTry (k : List Char → Option CapList) (nm : Option String) (cs : List Char) :
    Option CapList :=
  ((List.range (cs.takeWhile (fun c => !(c == '/'))).length).reverse).findSome?
    (fun i => (k (List.drop (i + 1) cs)).map
      (fun caps => (nm, String.mk (List.take (i + 1) cs)) :: caps))

/-- Modelled from the spec: fuel-indexed matcher over compiled segments.
Matching is exact over the whole path; a literal segment consumes its
character; a placeholder consumes one or more non-separator characters.
Each step peels one segment, so any fuel above the segment count is
enough. -/
def msegF : Nat → Pat → List Char → Option CapList
  | 0, _, _ => none
  | _ + 1, [], cs => if cs.isEmpty then some [] else none
  | _ + 1, Seg.lit _ :: _, [] => none
  | fuel + 1, Seg.lit c :: rest, d :: cs => if d == c then msegF fuel rest cs else none
  | fuel + 1, Seg.named n :: rest, cs => phTry (fun t => msegF fuel rest t) (some n) cs
  | fuel + 1, Seg.unnamed :: rest, cs => phTry (fun t => msegF fuel rest t) none cs

/-- Modelled from the spec: `match(pattern, path)`; on success yields the
capture list, on failure `none` (not an error). -/
def mseg (segs : Pat) (cs : List Char) : Option CapList :=
  msegF (segs.length + 1) segs cs

/-- Error raised for a structurally invalid path template (§7). -/
inductive PatternError
  | unbalanced
  | emptyTemplate
deriving DecidableEq, Repr

/-- Modelled from the spec: the template scanner of `compile`.  The
second argument is `none` outside a placeholder and `some acc` inside
one, with `acc` holding the (reversed) name characters read so far.
An unmatched brace in either direction is structurally invalid. -/
def scanTemplate : List Char → Option (List Char) → Except PatternError Pat
  | [], none => Except.ok []
  | [], some _ => Except.error PatternError.unbalanced
  | c :: rest, none =>
    if c == '{' then scanTemplate rest (some [])
    else if c == '}' then Except.error PatternError.unbalanced
    else (scanTemplate rest none).map (fun segs => Seg.lit c :: segs)
  | c :: rest, some acc =>
    if c == '}' then
      (scanTemplate rest none).map
        (fun segs =>
          (if acc.isEmpty then Seg.unnamed else Seg.named (String.mk acc.reverse)) :: segs)
    else if c == '{' then Except.error PatternError.unbalanced
    else scanTemplate rest (some (c :: acc))

/-- Modelled from the spec: `compile(template)`; fails fast with a
`PatternError` on a structurally invalid template (unbalanced
placeholders, or an empty template where a path is required). -/
def compilePattern (s : String) : Except PatternError Pat :=
  if s.data.isEmpty then Except.error PatternError.emptyTemplate
  else scanTemplate s.data none

/-- Brace-balance check for a template, tracking whether the scanner is
inside a placeholder; used to state structural validity independently of
`compilePattern`. -/
def balancedFrom : List Char → Bool → Bool
  | [], inside => !inside
  | c :: rest, true =>
    if c == '}' then balancedFrom rest false
    else if c == '{' then false
    else balancedFrom rest true
  | c :: rest, false =>
    if c == '{' then balancedFrom rest true
    else if c == '}' then false
    else balancedFrom rest false

/-- A template is structurally invalid when it is empty or its
placeholder braces are unbalanced (spec §4.1, §7). -/
def templateInvalid (s : String) : Bool :=
  s.data.isEmpty || !(balancedFrom s.data false)

/-- The placeholder keys of a compiled template, in order:
`some n` for `{n}`, `none` for `{}`. -/
def phKeys : Pat → List (Option String)
  | [] => []
  | Seg.lit _ :: segs => phKeys segs
  | Seg.named n :: segs => some n :: phKeys segs
  | Seg.unnamed :: segs => none :: phKeys segs

/-- Reconstruct a path from a template and one captured value per
placeholder; used to state that captures are the correct substrings. -/
def concatSegs : Pat → List String → List Char
  | [], _ => []
  | Seg.lit c :: segs, vs => c :: concatSegs segs vs
  | Seg.named _ :: _, [] => []
  | Seg.named _ :: segs, v :: vs => v.data ++ concatSegs segs vs
  | Seg.unnamed :: _, [] => []
  | Seg.unnamed :: segs, v :: vs => v.data ++ concatSegs segs vs

/-- The `RouteType` enum from the source: a route is matched on either the
request event or the response event. -/
inductive RouteType
  | REQUEST
  | RESPONSE
deriving DecidableEq, Repr

/-- The request sub-object of a mitmproxy flow, with the fields the
source reads and writes (method, path, host, port, scheme, headers). -/
structure Request where
  method : String
  scheme : String
  host : String
  port : Nat
  path : String
  headers : List (String × String)
deriving DecidableEq, Repr

/-- A mitmproxy `Response` as built by `Response.make(status, content,
headers)`. -/
structure Response where
  status_code : Nat
  headers : List (String × String)
  content : String
deriving DecidableEq, Repr

/-- The result of `urllib.parse.urlparse` restricted to what the source
uses: the path component. -/
structure ParsedURL where
  path : String
deriving DecidableEq, Repr

/-- A mitmproxy flow as seen by the source: the request, an optional
response, the server connection target, and the per-flow metadata
entries the source attaches (`FlowMeta.REQ_URLPARSE`, `REQ_HOST`,
`REQ_PASSTHROUGH`, `RESP_PASSTHROUGH`; the flags model
`metadata.get(k) is True`, so absent means `false`). -/
structure Flow where
  request : Request
  response : Option Response
  server_conn : Option (String × Nat)
  meta_urlparse : Option ParsedURL
  meta_req_host : Option (String × Nat)
  meta_req_passthrough : Bool
  meta_resp_passthrough : Bool
deriving DecidableEq, Repr

/-- The `parse` library's match result as consumed by the dispatcher:
`params.fixed` (positional captures) and `params.named`. -/
structure Params where
  fixed : List String
  named : List (String × String)
deriving DecidableEq, Repr

/-- Build `Params` from a capture list: unnamed captures are positional,
named captures form the mapping, both in match order. -/
def toParams (caps : CapList) : Params :=
  { fixed := caps.filterMap (fun c => if c.1.isNone then some c.2 else none)
    named := caps.filterMap (fun c => c.1.map (fun n => (n, c.2))) }

/-- A user handler: mutation of the flow becomes returning a new flow;
an exception raised inside the handler becomes `Except.error (msg, fl)`
carrying `str(e)` and the partially-mutated flow. -/
abbrev Handler := Flow → Params → Except (String × Flow) Flow

/-- One registered route entry `(host, compiled pattern, handler)`, as
stored in `request_routes` / `response_routes`. -/
structure Route where
  host : Option String
  pat : Pat
  handler : Handler

/-- Dispatch-time errors that propagate out of the engine to mitmproxy:
a missing proxy header (`KeyError`), a non-numeric forwarded port
(`ValueError` from `int`), or an uncaught handler exception. -/
inductive DErr
  | headerKey (name : String)
  | portValue (s : String)
  | handlerExc (msg : String) (fl : Flow)

/-- A host-mapping source matcher: an exact string, or a compiled
regular expression — modelled as its match predicate, since the source
only ever calls `src.match(host)` on it. -/
inductive HostMatcher
  | exact (s : String)
  | pat (test : String → Bool)

/-- Matching test from the source loop: `(isinstance(src, re.Pattern)
and src.match(host)) or (isinstance(src, str) and host == src)`. -/
def matcherMatches : HostMatcher → String → Bool
  | HostMatcher.exact s, h => h == s
  | HostMatcher.pat t, h => t h

/-- The `InterceptedAPI` configuration and registry state. -/
structure InterceptedAPI where
  default_host : Option String
  host_mapping : List (HostMatcher × String)
  request_routes : List Route
  response_routes : List Route
  blacklist_domain : List String
  request_passthrough : Bool
  response_passthrough : Bool
  respect_proxy_headers : Bool

/-- Case-insensitive header lookup (mitmproxy headers are
case-insensitive); returns the first matching header value. -/
def headerGet (hs : List (String × String)) (name : String) : Option String :=
  (hs.find? (fun kv => kv.1.data.map Char.toLower == name.data.map Char.toLower)).map
    (fun kv => kv.2)

/-- Numeric parse of a digit string, `none` when empty or non-numeric;
models Python's `int(...)` raising `ValueError`. -/
def natOfDigits? (cs : List Char) : Option Nat :=
  match cs with
  | [] => none
  | _ =>
    cs.foldl
      (fun acc c =>
        match acc with
        | none => none
        | some n => if '0' ≤ c ∧ c ≤ '9' then some (n * 10 + (c.toNat - '0'.toNat)) else none)
      (some 0)

/-- Split `host[:port]` at the first colon. -/
def splitFirstColon : List Char → List Char × Option (List Char)
  | [] => ([], none)
  | c :: rest =>
    if c == ':' then ([], some rest)
    else
      let r := splitFirstColon rest
      (c :: r.1, r.2)

/-- Modelled from the spec: mitmproxy's `url.parse_authority(_, check
disabled)` — split the authority into host and optional numeric port;
on a malformed authority return the input unchanged with no port. -/
def parse_authority (s : String) : String × Option Nat :=
  match splitFirstColon s.data with
  | (h, none) => (String.mk h, none)
  | (h, some p) =>
    match natOfDigits? p with
    | some n => (String.mk h, some n)
    | none => (s, none)

/-- Modelled from the spec: mitmproxy's `url.default_port` — the
conventional port of a scheme (§4.3: e.g. 443/80), none if unknown. -/
def default_port : String → Option Nat
  | "http" => some 80
  | "https" => some 443
  | _ => none

/-- Modelled from the spec: mitmproxy's `flow.request.pretty_host` —
the `Host` header when present, otherwise the flow's own destination
host. -/
def pretty_host (r : Request) : String :=
  match headerGet r.headers "Host" with
  | some h => h
  | none => r.host

/-- Modelled from the spec: `urllib.parse.urlparse(path).path` for an
origin-form request path — the path up to the query or fragment. -/
def urlparse (s : String) : ParsedURL :=
  ⟨String.mk (s.data.takeWhile (fun c => !(c == '?' || c == '#')))⟩

/-- The default fallback response: `Response.make(404, "Not Found",
{"X-Intercepted-By": "xepor"})`. -/
def default_response : Response :=
  ⟨404, [("X-Intercepted-By", "xepor")], "Not Found"⟩

/-- The `error_response(msg)` method: `Response.make(502, msg)`. -/
def error_response (msg : String) : Response :=
  ⟨502, [], msg⟩

/-- The uncached computation inside `InterceptedAPI.get_host`: `(host,
port)` from the forwarded headers when `respect_proxy_headers` is set
(missing header is a `KeyError`, non-numeric port a `ValueError`),
otherwise from the flow's authority with scheme-default port fallback
(`port or default_port(scheme) or 80`). -/
def resolve_host (api : InterceptedAPI) (r : Request) : Except DErr (String × Nat) :=
  if api.respect_proxy_headers then
    match headerGet r.headers "X-Forwarded-Host" with
    | none => Except.error (DErr.headerKey "X-Forwarded-Host")
    | some h =>
      match headerGet r.headers "X-Forwarded-Port" with
      | none => Except.error (DErr.headerKey "X-Forwarded-Port")
      | some ps =>
        match natOfDigits? ps.data with
        | none => Except.error (DErr.portValue ps)
        | some p => Except.ok (h, p)
  else
    let a := parse_authority (pretty_host r)
    let port :=
      match a.2 with
      | some p => if p == 0 then (default_port r.scheme).getD 80 else p
      | none => (default_port r.scheme).getD 80
    Except.ok (a.1, port)

/-- The `InterceptedAPI.get_host` method: return the `REQ_HOST` metadata entry when
present, otherwise resolve `(host, port)` and memoize it there; the
entry is written at most once per flow. -/
def get_host (api : InterceptedAPI) (fl : Flow) : Except DErr ((String × Nat) × Flow) :=
  match fl.meta_req_host with
  | some hp => Except.ok (hp, fl)
  | none =>
    match resolve_host api fl.request with
    | Except.error e => Except.error e
    | Except.ok hp => Except.ok (hp, { fl with meta_req_host := some hp })

/-- The scheme rewrite applied inside `remap_host` when an overwrite
happens under proxy-header trust: the outbound scheme is taken from the
`X-Forwarded-Proto` header (missing header is a `KeyError`). -/
def protoRewrite (api : InterceptedAPI) (fl : Flow) : Except DErr Flow :=
  if api.respect_proxy_headers then
    match headerGet fl.request.headers "X-Forwarded-Proto" with
    | some sch => Except.ok { fl with request := { fl.request with scheme := sch } }
    | none => Except.error (DErr.headerKey "X-Forwarded-Proto")
  else Except.ok fl

/-- The `InterceptedAPI.remap_host` method: resolve `(host, port)`, scan the host
mapping table in order for the first rule matching the host, and — when
`overwrite` is set and the flow's destination differs — rewrite the
flow's scheme (under proxy-header trust), server connection target, and
destination host/port to the mapped destination on the resolved port.
Returns the mapped destination, or the resolved host when no rule
matches. -/
def remap_host (api : InterceptedAPI) (fl0 : Flow) (overwrite : Bool) :
    Except DErr (String × Flow) :=
  match get_host api fl0 with
  | Except.error e => Except.error e
  | Except.ok ((host, port), fl) =>
    match api.host_mapping.find? (fun sd => matcherMatches sd.1 host) with
    | none => Except.ok (host, fl)
    | some (_, dest) =>
      if overwrite && (fl.request.host != dest || fl.request.port != port) then
        match protoRewrite api fl with
        | Except.error e => Except.error e
        | Except.ok fl1 =>
          Except.ok (dest, { fl1 with
            server_conn := some (dest, port)
            request := { fl1.request with host := dest, port := port } })
      else Except.ok (dest, fl)

/-- The registration-order scan of `find_handler`: skip entries whose
host key differs from the event host, return the first remaining entry
whose pattern matches the path. -/
def findRoute (routes : List Route) (host path : String) : Option (Handler × CapList) :=
  match routes with
  | [] => none
  | r :: rest =>
    if r.host = some host then
      match mseg r.pat path.data with
      | some caps => some (r.handler, caps)
      | none => findRoute rest host path
    else findRoute rest host path

/-- The route list a direction dispatches against. -/
def routesFor (api : InterceptedAPI) : RouteType → List Route
  | RouteType.REQUEST => api.request_routes
  | RouteType.RESPONSE => api.response_routes

/-- The `InterceptedAPI.find_handler(host, path, rtype)` method. -/
def find_handler (api : InterceptedAPI) (host path : String) (rtype : RouteType) :
    Option (Handler × CapList) :=
  findRoute (routesFor api rtype) host path

/-- The `catcher` wrapper installed by `route` when `catch_error` is
set: any exception from the wrapped handler is caught (and logged); when
`return_error` is set the flow's response is replaced with
`error_response(str(e))`, otherwise the partially-mutated flow proceeds
unchanged. -/
def catcher (return_error : Bool) (f : Handler) : Handler :=
  fun fl p =>
    match f fl p with
    | Except.ok g => Except.ok g
    | Except.error (m, g) =>
      Except.ok (if return_error then { g with response := some (error_response m) } else g)

/-- The method `InterceptedAPI.route(path, host, rtype, catch_error,
return_error)`
applied to a view function: resolve the host key (`host or
default_host`, with Python's falsy empty string), compile the template
(the `Parser(path)` argument is evaluated before the `append`, so a
compilation error leaves the registry untouched — returned as `(api,
some e)`), wrap the handler with `catcher` when `catch_error` is set,
and append the entry to the direction's route list. -/
def route (api : InterceptedAPI) (path : String) (host : Option String)
    (rtype : RouteType) (catch_error : Bool) (return_error : Bool) (f : Handler) :
    InterceptedAPI × Option PatternError :=
  let host1 : Option String :=
    match host with
    | some h => if h.isEmpty then api.default_host else some h
    | none => api.default_host
  match compilePattern path with
  | Except.error e => (api, some e)
  | Except.ok pat =>
    let hnd := if catch_error then catcher return_error f else f
    match rtype with
    | RouteType.REQUEST =>
      ({ api with request_routes := api.request_routes ++ [⟨host1, pat, hnd⟩] }, none)
    | RouteType.RESPONSE =>
      ({ api with response_routes := api.response_routes ++ [⟨host1, pat, hnd⟩] }, none)

/-- The shared prologue of `request` and `response`: read the parsed
URL from the flow metadata, computing and caching it on first use. -/
def memoUrl (fl : Flow) : ParsedURL × Flow :=
  match fl.meta_urlparse with
  | some u => (u, fl)
  | none =>
    let u := urlparse fl.request.path
    (u, { fl with meta_urlparse := some u })

/-- Lift a handler result into the dispatcher's error type: an uncaught
handler exception propagates to mitmproxy. -/
def liftHandlerResult : Except (String × Flow) Flow → Except DErr Flow
  | Except.ok g => Except.ok g
  | Except.error (m, g) => Except.error (DErr.handlerExc m g)

/-- The `InterceptedAPI.request(flow)` hook: cache the parsed URL; skip if the
request-passthrough flag is already set; remap the host (request-time
side effect); dispatch to the first matching request route with the
positional and named captures; otherwise substitute the default
response when passthrough is off or the resolved host is blacklisted;
otherwise mark the request-passthrough flag. -/
def request (api : InterceptedAPI) (fl0 : Flow) : Except DErr Flow :=
  let up := memoUrl fl0
  let path := up.1.path
  let fl := up.2
  if fl.meta_req_passthrough then Except.ok fl
  else
    match remap_host api fl true with
    | Except.error e => Except.error e
    | Except.ok (host, fl1) =>
      match find_handler api host path RouteType.REQUEST with
      | some (hnd, caps) => liftHandlerResult (hnd fl1 (toParams caps))
      | none =>
        if !api.request_passthrough then
          Except.ok { fl1 with response := some default_response }
        else
          match get_host api fl1 with
          | Except.error e => Except.error e
          | Except.ok ((h, _), fl2) =>
            if h ∈ api.blacklist_domain then
              Except.ok { fl2 with response := some default_response }
            else
              Except.ok { fl2 with meta_req_passthrough := true }

/-- The `InterceptedAPI.response(flow)` hook: cache the parsed URL; skip if the
response-passthrough flag is already set; dispatch to the first matching
response route for the resolved (memoized) host; otherwise substitute
the default response when passthrough is off or the resolved host is
blacklisted; otherwise mark the response-passthrough flag. -/
def response (api : InterceptedAPI) (fl0 : Flow) : Except DErr Flow :=
  let up := memoUrl fl0
  let path := up.1.path
  let fl := up.2
  if fl.meta_resp_passthrough then Except.ok fl
  else
    match get_host api fl with
    | Except.error e => Except.error e
    | Except.ok ((host, _), fl1) =>
      match find_handler api host path RouteType.RESPONSE with
      | some (hnd, caps) => liftHandlerResult (hnd fl1 (toParams caps))
      | none =>
        if !api.response_passthrough then
          Except.ok { fl1 with response := some default_response }
        else
          match get_host api fl1 with
          | Except.error e => Except.error e
          | Except.ok ((h, _), fl2) =>
            if h ∈ api.blacklist_domain then
              Except.ok { fl2 with response := some default_response }
            else
              Except.ok { fl2 with meta_resp_passthrough := true }

def wFlowBase : Flow :=
  { request := { method := "GET", scheme := "http", host := "example.com", port := 80,
                 path := "/get?x=1", headers := [] }
    response := none
    server_conn := none
    meta_urlparse := none
    meta_req_host := none
    meta_req_passthrough := false
    meta_resp_passthrough := false }

def wApiEmpty : InterceptedAPI :=
  { default_host := some "example.com"
    host_mapping := []
    request_routes := []
    response_routes := []
    blacklist_domain := []
    request_passthrough := true
    response_passthrough := true
    respect_proxy_headers := false }

def wFlowSkip : Flow :=
  { wFlowBase with
    meta_urlparse := some ⟨"/get"⟩
    meta_req_passthrough := true
    meta_resp_passthrough := true }

def wFlowHosted : Flow := { wFlowBase with meta_req_host := some ("example.com", 80) }

def wApiMap : InterceptedAPI :=
  { wApiEmpty with host_mapping := [(HostMatcher.exact "example.com", "mapped.example")] }

def wFlowMapped : Flow :=
  { wFlowBase with
    meta_req_host := some ("example.com", 80)
    server_conn := some ("mapped.example", 80)
    request := { wFlowBase.request with host := "mapped.example", port := 80 } }

def wApiBlack : InterceptedAPI :=
  { wApiEmpty with blacklist_domain := ["bad.example"] }

def wFlowBad : Flow :=
  { wFlowBase with request := { wFlowBase.request with host := "bad.example" } }

def wFlowBadMemo : Flow :=
  { wFlowBad with
    meta_urlparse := some ⟨"/get"⟩
    meta_req_host := some ("bad.example", 80) }

/-- A route entry matches an event when its host key equals the event
host exactly and its pattern matches the path. -/
def routeMatches (r : Route) (host path : String) : Bool :=
  r.host == some host && (mseg r.pat path.data).isSome

def wHndA : Handler := fun g _ => Except.ok { g with response := some (error_response "A") }

def wHndB : Handler := fun g _ => Except.ok { g with response := some (error_response "B") }

def wRouteA : Route := ⟨some "example.com", [Seg.lit '/', Seg.named "a"], wHndA⟩

def wRouteB : Route := ⟨some "example.com", [Seg.lit '/', Seg.unnamed], wHndB⟩

def wApiTwo : InterceptedAPI := { wApiEmpty with request_routes := [wRouteA, wRouteB] }

def wHndBoom : Handler := fun fl _ => Except.error ("boom", fl)

def wPatAuth : Pat := (compilePattern "/basic-auth/\x7busr\x7d/\x7bpwd\x7d").toOption.getD []

def wCapsAuth : CapList := [(some "usr", "alice"), (some "pwd", "secret")]

def wHndAuth : Handler := fun g _ => Except.ok { g with response := some (error_response "auth") }

def wApiAuth : InterceptedAPI :=
  { wApiEmpty with request_routes := [⟨some "example.com", wPatAuth, wHndAuth⟩] }

def wFlowAuth : Flow :=
  { wFlowBase with request := { wFlowBase.request with path := "/basic-auth/alice/secret" } }

def wFlowAuthMemo : Flow :=
  { wFlowAuth with
    meta_urlparse := some ⟨"/basic-auth/alice/secret"⟩
    meta_req_host := some ("example.com", 80) }

def wApiAuthResp : InterceptedAPI :=
  { wApiEmpty with response_routes := [⟨some "example.com", wPatAuth, wHndAuth⟩] }

theorem get_host_cached (api : InterceptedAPI) (fl : Flow) (hp : String × Nat)
    (h : fl.meta_req_host = some hp) : get_host api fl = Except.ok (hp, fl) := by
  unfold get_host
  rw [h]

theorem get_host_shape (api : InterceptedAPI) (fl fl' : Flow) (hp : String × Nat)
    (h : get_host api fl = Except.ok (hp, fl')) :
    fl' = { fl with meta_req_host := some hp } := by
  unfold get_host at h
  cases hm : fl.meta_req_host with
  | some hp0 =>
    simp only [hm, Except.ok.injEq, Prod.mk.injEq] at h
    obtain ⟨h1, h2⟩ := h
    subst h1
    subst h2
    cases fl
    simp_all
  | none =>
    simp only [hm] at h
    cases hr : resolve_host api fl.request with
    | error e => simp [hr] at h
    | ok hp1 =>
      simp only [hr, Except.ok.injEq, Prod.mk.injEq] at h
      obtain ⟨h1, h2⟩ := h
      subst h1
      exact h2.symm

theorem get_host_stable (api : InterceptedAPI) (fl fl' : Flow) (hp : String × Nat)
    (h : get_host api fl = Except.ok (hp, fl')) :
    get_host api fl' = Except.ok (hp, fl') := by
  have hs := get_host_shape api fl fl' hp h
  subst hs
  exact get_host_cached _ _ _ rfl

theorem get_host_response_frame (api : InterceptedAPI) (fl : Flow) (r : Option Response) :
    get_host api { fl with response := r } =
      (get_host api fl).map (fun q => (q.1, { q.2 with response := r })) := by
  unfold get_host
  cases hm : fl.meta_req_host with
  | some hp0 => simp [hm, Except.map]
  | none =>
    cases hr : resolve_host api fl.request with
    | error e => simp [hm, hr, Except.map]
    | ok hp1 => simp [hm, hr, Except.map]

theorem protoRewrite_shape (api : InterceptedAPI) (fl fl1 : Flow)
    (h : protoRewrite api fl = Except.ok fl1) :
    ∃ s, fl1 = { fl with request := { fl.request with scheme := s } } := by
  unfold protoRewrite at h
  by_cases hr : api.respect_proxy_headers = true
  · simp only [hr, if_true] at h
    cases hh : headerGet fl.request.headers "X-Forwarded-Proto" with
    | some sch =>
      simp only [hh, Except.ok.injEq] at h
      exact ⟨sch, h.symm⟩
    | none => simp [hh] at h
  · simp only [Bool.not_eq_true] at hr
    simp only [hr, Bool.false_eq_true, if_false] at h
    refine ⟨fl.request.scheme, ?_⟩
    cases h
    rfl

theorem protoRewrite_response_frame (api : InterceptedAPI) (fl : Flow) (r : Option Response) :
    protoRewrite api { fl with response := r } =
      (protoRewrite api fl).map (fun g => { g with response := r }) := by
  unfold protoRewrite
  by_cases hr : api.respect_proxy_headers = true
  · cases hh : headerGet fl.request.headers "X-Forwarded-Proto" with
    | some sch => simp [hr, hh, Except.map]
    | none => simp [hr, hh, Except.map]
  · simp only [Bool.not_eq_true] at hr
    simp [hr, Except.map]

theorem memoUrl_cached (fl : Flow) (u : ParsedURL) (h : fl.meta_urlparse = some u) :
    memoUrl fl = (u, fl) := by
  unfold memoUrl
  rw [h]

theorem memoUrl_shape (fl : Flow) :
    (memoUrl fl).2 = { fl with meta_urlparse := some (memoUrl fl).1 } := by
  unfold memoUrl
  cases h : fl.meta_urlparse with
  | some u =>
    simp only
    cases fl
    simp_all
  | none => simp only

theorem remap_ok_general (api : InterceptedAPI) (fl0 : Flow) (ow : Bool) (d : String)
    (fl' : Flow) (h : remap_host api fl0 ow = Except.ok (d, fl')) :
    ∃ host port,
      get_host api fl0 =
        Except.ok ((host, port), { fl0 with meta_req_host := some (host, port) }) ∧
      fl'.meta_req_host = some (host, port) ∧
      fl'.response = fl0.response ∧
      fl'.meta_urlparse = fl0.meta_urlparse ∧
      fl'.meta_req_passthrough = fl0.meta_req_passthrough ∧
      fl'.meta_resp_passthrough = fl0.meta_resp_passthrough ∧
      (match api.host_mapping.find? (fun sd => matcherMatches sd.1 host) with
       | none => d = host ∧ fl' = { fl0 with meta_req_host := some (host, port) }
       | some sd => d = sd.2 ∧ (ow = true → fl'.request.host = d ∧ fl'.request.port = port)) := by
  unfold remap_host at h
  cases hg : get_host api fl0 with
  | error e => simp [hg] at h
  | ok p =>
    obtain ⟨⟨host, port⟩, fl⟩ := p
    have hfl : fl = { fl0 with meta_req_host := some (host, port) } :=
      get_host_shape _ _ _ _ hg
    simp only [hg] at h
    refine ⟨host, port, by rw [← hfl], ?_⟩
    cases hf : api.host_mapping.find? (fun sd => matcherMatches sd.1 host) with
    | none =>
      simp only [hf, Except.ok.injEq, Prod.mk.injEq] at h
      obtain ⟨hd, hfl'⟩ := h
      subst hd
      subst hfl'
      subst hfl
      simp [hf]
    | some sd =>
      obtain ⟨m, dest⟩ := sd
      simp only [hf] at h
      by_cases hc : (ow && (fl.request.host != dest || fl.request.port != port)) = true
      · simp only [hc, if_true] at h
        cases hpr : protoRewrite api fl with
        | error e => simp [hpr] at h
        | ok fl1 =>
          simp only [hpr, Except.ok.injEq, Prod.mk.injEq] at h
          obtain ⟨hd, hfl'⟩ := h
          obtain ⟨s, hs⟩ := protoRewrite_shape _ _ _ hpr
          subst hd
          subst hfl'
          subst hs
          subst hfl
          simp [hf]
      · simp only [Bool.not_eq_true] at hc
        simp only [hc, Bool.false_eq_true, if_false, Except.ok.injEq, Prod.mk.injEq] at h
        obtain ⟨hd, hfl'⟩ := h
        subst hd
        subst hfl'
        refine ⟨?_, ?_, ?_, ?_, ?_, ?_⟩
        · rw [hfl]
        · rw [hfl]
        · rw [hfl]
        · rw [hfl]
        · rw [hfl]
        · simp only [hf]
          refine ⟨by simp, fun how => ?_⟩
          subst how
          simp only [Bool.true_and, Bool.or_eq_false_iff] at hc
          rw [hfl] at hc
          simp only [bne_eq_false_iff_eq] at hc
          rw [hfl]
          exact ⟨hc.1, hc.2⟩

theorem remap_stable (api : InterceptedAPI) (fl0 : Flow) (d : String) (fl' : Flow)
    (h : remap_host api fl0 true = Except.ok (d, fl')) :
    remap_host api fl' true = Except.ok (d, fl') := by
  obtain ⟨host, port, hg, hmeta, _, _, _, _, hmat⟩ := remap_ok_general api fl0 true d fl' h
  have hgc := get_host_cached api fl' (host, port) hmeta
  unfold remap_host
  simp only [hgc]
  cases hf : api.host_mapping.find? (fun sd => matcherMatches sd.1 host) with
  | none =>
    simp only [hf] at hmat ⊢
    obtain ⟨hd, _⟩ := hmat
    subst hd
    rfl
  | some sd =>
    simp only [hf] at hmat ⊢
    obtain ⟨hd, hreq⟩ := hmat
    obtain ⟨hh, hp⟩ := hreq (by trivial)
    subst hd
    simp [hh, hp]

theorem remap_response_frame (api : InterceptedAPI) (fl : Flow) (r : Option Response)
    (ow : Bool) :
    remap_host api { fl with response := r } ow =
      (remap_host api fl ow).map (fun p => (p.1, { p.2 with response := r })) := by
  unfold remap_host
  rw [get_host_response_frame]
  cases hg : get_host api fl with
  | error e => simp [Except.map]
  | ok p =>
    obtain ⟨⟨host, port⟩, fl2⟩ := p
    simp only [Except.map]
    cases hf : api.host_mapping.find? (fun sd => matcherMatches sd.1 host) with
    | none => simp [hf]
    | some sd =>
      obtain ⟨m, dest⟩ := sd
      simp only [hf]
      by_cases hc : (ow && (fl2.request.host != dest || fl2.request.port != port)) = true
      · simp only [hc, if_true]
        rw [protoRewrite_response_frame]
        cases hpr : protoRewrite api fl2 with
        | error e => simp [Except.map]
        | ok fl1 => simp [Except.map]
      · simp only [Bool.not_eq_true] at hc
        simp [hc]

/-- Claim C2: for every flow whose direction's passthrough idempotence
flag is already set (the state left by a first pass-through decision,
which also caches the parsed URL), a second call to the dispatch
function for that direction performs no handler lookup and no side
effect: it returns the flow unchanged — request, response, destination
and metadata all intact. -/
theorem dispatch_passthrough_idempotent (api : InterceptedAPI) (fl : Flow) :
    (fl.meta_req_passthrough = true → fl.meta_urlparse.isSome = true →
       request api fl = Except.ok fl) ∧
    (fl.meta_resp_passthrough = true → fl.meta_urlparse.isSome = true →
       response api fl = Except.ok fl) := by
  constructor
  · intro hflag hurl
    obtain ⟨u, hu⟩ := Option.isSome_iff_exists.mp hurl
    unfold request
    simp [memoUrl_cached fl u hu, hflag]
  · intro hflag hurl
    obtain ⟨u, hu⟩ := Option.isSome_iff_exists.mp hurl
    unfold response
    simp [memoUrl_cached fl u hu, hflag]

/-- Witness for C2 at a concrete flow with both flags set. -/
theorem dispatch_passthrough_idempotent_witness :
    request wApiEmpty wFlowSkip = Except.ok wFlowSkip ∧
    response wApiEmpty wFlowSkip = Except.ok wFlowSkip :=
  ⟨(dispatch_passthrough_idempotent wApiEmpty wFlowSkip).1 rfl rfl,
   (dispatch_passthrough_idempotent wApiEmpty wFlowSkip).2 rfl rfl⟩

/-- Claim C6: the first `get_host` call computes `(host, port)` and
stores it in the flow's metadata, every later call returns exactly that
tuple without recomputation, and the metadata entry is written at most
once (a flow that already carries it is returned unchanged). -/
theorem get_host_memoized_once (api : InterceptedAPI) (fl fl' : Flow) (hp : String × Nat) :
    (get_host api fl = Except.ok (hp, fl') →
       fl'.meta_req_host = some hp ∧ get_host api fl' = Except.ok (hp, fl')) ∧
    (fl.meta_req_host = some hp → get_host api fl = Except.ok (hp, fl)) := by
  constructor
  · intro h
    have hs := get_host_shape api fl fl' hp h
    subst hs
    exact ⟨rfl, get_host_cached _ _ _ rfl⟩
  · exact get_host_cached api fl hp

/-- Witness for C6: first call memoizes `("example.com", 80)`, second
call returns the cached tuple with the flow unchanged. -/
theorem get_host_memoized_once_witness :
    (wFlowHosted.meta_req_host = some ("example.com", 80) ∧
     get_host wApiEmpty wFlowHosted = Except.ok (("example.com", 80), wFlowHosted)) ∧
    get_host wApiEmpty wFlowHosted = Except.ok (("example.com", 80), wFlowHosted) :=
  ⟨(get_host_memoized_once wApiEmpty wFlowBase wFlowHosted ("example.com", 80)).1 (by rfl),
   (get_host_memoized_once wApiEmpty wFlowHosted wFlowHosted ("example.com", 80)).2 (by rfl)⟩

/-- Claim C9: `get_host` memoizes the resolved `(host, port)` before
`remap_host` rewrites the flow's destination, so after a remap with
overwrite every later `get_host` call on the flow still returns the
original pre-remap host — hence the blacklist membership check and the
response-direction route lookup, which both go through `get_host`, use
the original host and not the mapped destination. -/
theorem get_host_stable_after_remap (api : InterceptedAPI) (fl fl1 fl' : Flow)
    (host dest : String) (port : Nat)
    (hgh : get_host api fl = Except.ok ((host, port), fl1))
    (hremap : remap_host api fl true = Except.ok (dest, fl')) :
    fl'.meta_req_host = some (host, port) ∧
    get_host api fl' = Except.ok ((host, port), fl') := by
  obtain ⟨host2, port2, hg2, hmeta, _⟩ := remap_ok_general api fl true dest fl' hremap
  rw [hgh] at hg2
  simp only [Except.ok.injEq, Prod.mk.injEq] at hg2
  obtain ⟨⟨hh, hp⟩, _⟩ := hg2
  subst hh
  subst hp
  exact ⟨hmeta, get_host_cached _ _ _ hmeta⟩

/-- Witness for C9: after the remap rewrites the destination to
`mapped.example`, `get_host` still returns `example.com`. -/
theorem get_host_stable_after_remap_witness :
    wFlowMapped.meta_req_host = some ("example.com", 80) ∧
    get_host wApiMap wFlowMapped = Except.ok (("example.com", 80), wFlowMapped) :=
  get_host_stable_after_remap wApiMap wFlowBase wFlowHosted wFlowMapped
    "example.com" "mapped.example" 80 (by rfl) (by rfl)

/-- Claim C7: when the resolved host matches a rule of the host mapping
table, `remap_host` with `overwrite = false` returns the mapped
destination host while leaving the flow's server connection target,
destination host field and destination port field (indeed the whole
request) unchanged; only the host metadata cache may be filled in. -/
theorem remap_host_no_overwrite_frame (api : InterceptedAPI) (fl fl1 : Flow)
    (host dest : String) (port : Nat) (m : HostMatcher)
    (hgh : get_host api fl = Except.ok ((host, port), fl1))
    (hfind : api.host_mapping.find? (fun sd => matcherMatches sd.1 host) = some (m, dest)) :
    remap_host api fl false = Except.ok (dest, fl1) ∧
    fl1.request = fl.request ∧ fl1.server_conn = fl.server_conn ∧
    fl1.response = fl.response := by
  have hs := get_host_shape api fl fl1 (host, port) hgh
  refine ⟨?_, ?_, ?_, ?_⟩
  · unfold remap_host
    simp [hgh, hfind]
  · rw [hs]
  · rw [hs]
  · rw [hs]

/-- Witness for C7: the rule maps `example.com` to `mapped.example`;
with `overwrite = false` the flow keeps its original destination. -/
theorem remap_host_no_overwrite_frame_witness :
    remap_host wApiMap wFlowBase false = Except.ok ("mapped.example", wFlowHosted) ∧
    wFlowHosted.request = wFlowBase.request ∧
    wFlowHosted.server_conn = wFlowBase.server_conn ∧
    wFlowHosted.response = wFlowBase.response :=
  remap_host_no_overwrite_frame wApiMap wFlowBase wFlowHosted "example.com" "mapped.example"
    80 (HostMatcher.exact "example.com") (by rfl) (by rfl)

/-- Claim C3: a dispatched event whose resolved host is blacklisted and
for which no route of that direction matches gets the default response
(status 404, header `X-Intercepted-By: xepor`) substituted on the flow,
whatever the direction's passthrough configuration — the conclusion does
not depend on `request_passthrough` / `response_passthrough`. -/
theorem blacklist_forces_default_response (api : InterceptedAPI) :
    (∀ fl fl2 ehost host port,
       fl.meta_req_passthrough = false →
       remap_host api (memoUrl fl).2 true = Except.ok (ehost, fl2) →
       fl2.meta_req_host = some (host, port) →
       host ∈ api.blacklist_domain →
       find_handler api ehost (memoUrl fl).1.path RouteType.REQUEST = none →
       request api fl = Except.ok { fl2 with response := some default_response }) ∧
    (∀ fl fl1 host port,
       fl.meta_resp_passthrough = false →
       get_host api (memoUrl fl).2 = Except.ok ((host, port), fl1) →
       host ∈ api.blacklist_domain →
       find_handler api host (memoUrl fl).1.path RouteType.RESPONSE = none →
       response api fl = Except.ok { fl1 with response := some default_response }) := by
  constructor
  · intro fl fl2 ehost host port hflag hremap hmeta hbl hfind
    have hflag2 : (memoUrl fl).2.meta_req_passthrough = false := by
      rw [memoUrl_shape fl]
      exact hflag
    unfold request
    simp only [hflag2, Bool.false_eq_true, if_false, hremap, hfind]
    cases hrp : api.request_passthrough with
    | false => simp
    | true =>
      simp only [Bool.not_true, Bool.false_eq_true, if_false,
        get_host_cached api fl2 (host, port) hmeta]
      simp [hbl]
  · intro fl fl1 host port hflag hgh hbl hfind
    have hflag2 : (memoUrl fl).2.meta_resp_passthrough = false := by
      rw [memoUrl_shape fl]
      exact hflag
    unfold response
    simp only [hflag2, Bool.false_eq_true, if_false, hgh, hfind]
    cases hrp : api.response_passthrough with
    | false => simp
    | true =>
      simp only [Bool.not_true, Bool.false_eq_true, if_false,
        get_host_stable api (memoUrl fl).2 fl1 (host, port) hgh]
      simp [hbl]

/-- Witness for C3: `bad.example` is blacklisted, both passthrough flags
are configured `true`, no route matches — both directions substitute the
default response. -/
theorem blacklist_forces_default_response_witness :
    request wApiBlack wFlowBad =
      Except.ok { wFlowBadMemo with response := some default_response } ∧
    response wApiBlack wFlowBad =
      Except.ok { wFlowBadMemo with response := some default_response } :=
  ⟨(blacklist_forces_default_response wApiBlack).1 wFlowBad wFlowBadMemo "bad.example"
      "bad.example" 80 (by rfl) (by rfl) (by rfl) (by decide) (by rfl),
   (blacklist_forces_default_response wApiBlack).2 wFlowBad wFlowBadMemo "bad.example" 80
      (by rfl) (by rfl) (by decide) (by rfl)⟩

/-- Claim C1: lookup scans the direction's entries in registration
order, filtered by exact host-string equality, and returns the first
entry whose host matches and whose pattern matches the path; hence for
routes R1 registered before R2, both matching the event, the handler
returned is R1's (the first matching entry), never R2's. -/
theorem find_handler_first_match_priority (api : InterceptedAPI) (rtype : RouteType)
    (pre mid post : List Route) (r1 r2 : Route) (host path : String) (caps : CapList)
    (hroutes : routesFor api rtype = pre ++ r1 :: (mid ++ r2 :: post))
    (hpre : ∀ r ∈ pre, routeMatches r host path = false)
    (h1h : r1.host = some host) (h1m : mseg r1.pat path.data = some caps)
    (_h2 : routeMatches r2 host path = true) :
    find_handler api host path rtype = some (r1.handler, caps) := by
  unfold find_handler
  rw [hroutes]
  clear hroutes _h2
  induction pre with
  | nil =>
    simp only [List.nil_append, findRoute, h1h, if_pos, h1m]
  | cons r rest ih =>
    have hr := hpre r (List.mem_cons_self r rest)
    have hrest : ∀ x ∈ rest, routeMatches x host path = false := fun x hx =>
      hpre x (List.mem_cons_of_mem r hx)
    simp only [List.cons_append, findRoute]
    by_cases hh : r.host = some host
    · rw [if_pos hh]
      cases homs : mseg r.pat path.data with
      | some c => simp [routeMatches, hh, homs] at hr
      | none => simpa only [homs] using ih hrest
    · rw [if_neg hh]
      exact ih hrest

/-- Witness for C1: both registered routes match host `example.com` and
path `/x`; lookup returns the first one's handler with its captures. -/
theorem find_handler_first_match_priority_witness :
    find_handler wApiTwo "example.com" "/x" RouteType.REQUEST =
      some (wRouteA.handler, [(some "a", "x")]) :=
  find_handler_first_match_priority wApiTwo RouteType.REQUEST [] [] [] wRouteA wRouteB
    "example.com" "/x" [(some "a", "x")] (by rfl) (by intro r hr; simp at hr)
    (by rfl) (by rfl) (by rfl)

/-- Claim C5: for a handler wrapped by `catcher` (`catch_error = true`),
an exception with message `m` raised during dispatch does not propagate
to the caller; with `return_error = true` the flow's response is
replaced by the synthetic `error_response m` — status 502, body
containing `m` — and with `return_error = false` no response
substitution happens and the partially-mutated flow proceeds. -/
theorem catcher_error_isolation (f : Handler) (fl g : Flow) (p : Params) (m : String)
    (hf : f fl p = Except.error (m, g)) :
    catcher true f fl p = Except.ok { g with response := some (error_response m) } ∧
    (error_response m).status_code = 502 ∧
    m.data <:+: (error_response m).content.data ∧
    catcher false f fl p = Except.ok g := by
  unfold catcher
  simp only [hf]
  exact ⟨by simp, rfl, List.infix_rfl, by simp⟩

/-- Witness for C5: the handler raises with message `boom`; wrapped with
`return_error = true` the flow gets a 502 response with body `boom`,
with `return_error = false` the flow is unchanged. -/
theorem catcher_error_isolation_witness :
    catcher true wHndBoom wFlowBase { fixed := [], named := [] } =
      Except.ok { wFlowBase with response := some (error_response "boom") } ∧
    (error_response "boom").status_code = 502 ∧
    "boom".data <:+: (error_response "boom").content.data ∧
    catcher false wHndBoom wFlowBase { fixed := [], named := [] } = Except.ok wFlowBase :=
  catcher_error_isolation wHndBoom wFlowBase wFlowBase { fixed := [], named := [] } "boom"
    (by rfl)

theorem phTry_inv (k : List Char → Option CapList) (nm : Option String) (cs : List Char)
    (caps : CapList) (h : phTry k nm cs = some caps) :
    ∃ i caps', k (List.drop (i + 1) cs) = some caps' ∧
      caps = (nm, String.mk (List.take (i + 1) cs)) :: caps' := by
  unfold phTry at h
  obtain ⟨i, _, hfi⟩ := List.exists_of_findSome?_eq_some h
  rcases Option.map_eq_some'.mp hfi with ⟨caps', hk, heq⟩
  exact ⟨i, caps', hk, heq.symm⟩

theorem msegF_keys_concat : ∀ (fuel : Nat) (segs : Pat) (cs : List Char) (caps : CapList),
    msegF fuel segs cs = some caps →
    caps.map Prod.fst = phKeys segs ∧ concatSegs segs (caps.map Prod.snd) = cs := by
  intro fuel
  induction fuel with
  | zero =>
    intro segs cs caps h
    simp [msegF] at h
  | succ fuel ih =>
    intro segs cs caps h
    match segs with
    | [] =>
      simp only [msegF] at h
      by_cases hcs : cs.isEmpty = true
      · rw [if_pos hcs] at h
        obtain rfl : ([] : CapList) = caps := by simpa using h
        rw [List.isEmpty_iff] at hcs
        subst hcs
        exact ⟨rfl, rfl⟩
      · simp [hcs] at h
    | Seg.lit c :: rest =>
      match cs with
      | [] => simp [msegF] at h
      | d :: cs' =>
        simp only [msegF] at h
        by_cases hd : (d == c) = true
        · rw [if_pos hd] at h
          obtain ⟨hk, hc⟩ := ih rest cs' caps h
          refine ⟨by simpa [phKeys] using hk, ?_⟩
          simp only [concatSegs, hc]
          have hdc : d = c := by simpa using hd
          rw [hdc]
        · simp [hd] at h
    | Seg.named n :: rest =>
      simp only [msegF] at h
      obtain ⟨i, caps', hk, heq⟩ := phTry_inv _ _ _ _ h
      subst heq
      obtain ⟨hkeys, hcat⟩ := ih rest (List.drop (i + 1) cs) caps' hk
      refine ⟨by simp [phKeys, hkeys], ?_⟩
      simp only [List.map_cons, concatSegs, hcat]
      exact List.take_append_drop (i + 1) cs
    | Seg.unnamed :: rest =>
      simp only [msegF] at h
      obtain ⟨i, caps', hk, heq⟩ := phTry_inv _ _ _ _ h
      subst heq
      obtain ⟨hkeys, hcat⟩ := ih rest (List.drop (i + 1) cs) caps' hk
      refine ⟨by simp [phKeys, hkeys], ?_⟩
      simp only [List.map_cons, concatSegs, hcat]
      exact List.take_append_drop (i + 1) cs

/-- Claim C4: (a) a successful template match yields a capture list
whose keys are exactly the template's placeholder names in order, and
whose values are the path's substrings at the placeholder positions —
splicing the captured values back between the literal segments
reconstructs the matched path; (b) on a request dispatch that finds a
handler, the handler is invoked with the flow plus the match's
positional and named captures. -/
theorem match_named_captures_correct :
    (∀ segs cs caps, mseg segs cs = some caps →
       caps.map Prod.fst = phKeys segs ∧ concatSegs segs (caps.map Prod.snd) = cs) ∧
    (∀ (api : InterceptedAPI) fl ehost fl2 hnd caps,
       fl.meta_req_passthrough = false →
       remap_host api (memoUrl fl).2 true = Except.ok (ehost, fl2) →
       find_handler api ehost (memoUrl fl).1.path RouteType.REQUEST = some (hnd, caps) →
       request api fl = liftHandlerResult (hnd fl2 (toParams caps))) := by
  constructor
  · intro segs cs caps h
    exact msegF_keys_concat _ _ _ _ h
  · intro api fl ehost fl2 hnd caps hflag hremap hfind
    have hflag2 : (memoUrl fl).2.meta_req_passthrough = false := by
      rw [memoUrl_shape fl]
      exact hflag
    unfold request
    simp only [hflag2, Bool.false_eq_true, if_false, hremap, hfind]

/-- Witness for C4: `/basic-auth/\x7busr}/\x7bpwd}` against
`/basic-auth/alice/secret` yields named captures
`usr = alice, pwd = secret`, and the dispatcher invokes the registered
handler with those captures. -/
theorem match_named_captures_correct_witness :
    mseg wPatAuth "/basic-auth/alice/secret".data = some wCapsAuth ∧
    (wCapsAuth.map Prod.fst = phKeys wPatAuth ∧
     concatSegs wPatAuth (wCapsAuth.map Prod.snd) = "/basic-auth/alice/secret".data) ∧
    (toParams wCapsAuth).named = [("usr", "alice"), ("pwd", "secret")] ∧
    request wApiAuth wFlowAuth = liftHandlerResult (wHndAuth wFlowAuthMemo (toParams wCapsAuth)) :=
  ⟨by rfl,
   match_named_captures_correct.1 wPatAuth "/basic-auth/alice/secret".data wCapsAuth (by rfl),
   by rfl,
   match_named_captures_correct.2 wApiAuth wFlowAuth "example.com" wFlowAuthMemo wHndAuth
     wCapsAuth (by rfl) (by rfl) (by rfl)⟩

theorem scanTemplate_unbalanced : ∀ (cs : List Char) (acc : Option (List Char)),
    balancedFrom cs acc.isSome = false → ∃ e, scanTemplate cs acc = Except.error e := by
  intro cs
  induction cs with
  | nil =>
    intro acc h
    cases acc with
    | none => simp [balancedFrom] at h
    | some acc' => exact ⟨PatternError.unbalanced, rfl⟩
  | cons c rest ih =>
    intro acc h
    cases acc with
    | none =>
      simp only [Option.isSome_none, balancedFrom] at h
      by_cases h1 : (c == '{') = true
      · rw [if_pos h1] at h
        obtain ⟨e, he⟩ := ih (some []) (by simpa using h)
        exact ⟨e, by simp [scanTemplate, h1, he]⟩
      · rw [if_neg h1] at h
        by_cases h2 : (c == '}') = true
        · exact ⟨PatternError.unbalanced, by simp [scanTemplate, h1, h2]⟩
        · rw [if_neg h2] at h
          obtain ⟨e, he⟩ := ih none (by simpa using h)
          exact ⟨e, by simp [scanTemplate, h1, h2, he, Except.map]⟩
    | some acc' =>
      simp only [Option.isSome_some, balancedFrom] at h
      by_cases h1 : (c == '}') = true
      · rw [if_pos h1] at h
        obtain ⟨e, he⟩ := ih none (by simpa using h)
        exact ⟨e, by simp [scanTemplate, h1, he, Except.map]⟩
      · rw [if_neg h1] at h
        by_cases h2 : (c == '{') = true
        · exact ⟨PatternError.unbalanced, by simp [scanTemplate, h1, h2]⟩
        · rw [if_neg h2] at h
          obtain ⟨e, he⟩ := ih (some (c :: acc')) (by simpa using h)
          exact ⟨e, by simp [scanTemplate, h1, h2, he]⟩

/-- Claim C8: a structurally invalid path template (unbalanced
placeholder braces, or an empty template) makes registration fail with a
`PatternError` at registration time — the template is compiled before
the registry `append` runs — and the failed registration returns the
registry unchanged: the entry is either fully added or not at all. -/
theorem route_invalid_template_atomic (api : InterceptedAPI) (path : String)
    (host : Option String) (rtype : RouteType) (ce re : Bool) (f : Handler)
    (hinv : templateInvalid path = true) :
    ∃ e, compilePattern path = Except.error e ∧
      route api path host rtype ce re f = (api, some e) := by
  unfold templateInvalid at hinv
  by_cases hemp : path.data.isEmpty = true
  · refine ⟨PatternError.emptyTemplate, ?_, ?_⟩
    · unfold compilePattern
      simp [hemp]
    · unfold route compilePattern
      simp [hemp]
  · simp only [hemp, Bool.false_or] at hinv
    obtain ⟨e, he⟩ := scanTemplate_unbalanced path.data none (by simpa using hinv)
    refine ⟨e, ?_, ?_⟩
    · unfold compilePattern
      simp [hemp, he]
    · unfold route compilePattern
      simp [hemp, he]

/-- Witness for C8: the template `/a\x7bb` has an unmatched opening
brace; registration reports the `PatternError` and leaves the registry
as it was. -/
theorem route_invalid_template_atomic_witness :
    ∃ e, compilePattern "/a\x7bb" = Except.error e ∧
      route wApiEmpty "/a\x7bb" none RouteType.REQUEST true false wHndA =
        (wApiEmpty, some e) :=
  route_invalid_template_atomic wApiEmpty "/a\x7bb" none RouteType.REQUEST true false wHndA
    (by decide)

theorem remap_after_update (api : InterceptedAPI) (fl0 fl2 : Flow) (ehost : String)
    (r : Option Response)
    (hremap : remap_host api fl0 true = Except.ok (ehost, fl2)) :
    remap_host api { fl2 with response := r } true =
      Except.ok (ehost, { fl2 with response := r }) := by
  have hs := remap_stable api fl0 ehost fl2 hremap
  rw [remap_response_frame, hs]
  rfl

theorem request_redispatch_default (api : InterceptedAPI) (g : Flow) (ehost : String)
    (u : ParsedURL)
    (hurl : g.meta_urlparse = some u)
    (hflag : g.meta_req_passthrough = false)
    (hremap : remap_host api g true = Except.ok (ehost, g))
    (hfind : find_handler api ehost u.path RouteType.REQUEST = none)
    (hfall : api.request_passthrough = false ∨
       (∃ host port, g.meta_req_host = some (host, port) ∧ host ∈ api.blacklist_domain))
    (hresp : g.response = some default_response) :
    request api g = Except.ok g := by
  have hmu : memoUrl g = (u, g) := memoUrl_cached g u hurl
  have hcollapse : { g with response := some default_response } = g := by
    cases g
    simp_all
  unfold request
  simp only [hmu, hflag, Bool.false_eq_true, if_false, hremap, hfind]
  rcases hfall with hrp | ⟨host, port, hmeta, hbl⟩
  · simp [hrp, hcollapse]
    all_goals (cases g; simp_all)
  · cases hrp : api.request_passthrough with
    | false =>
      simp [hcollapse]
      all_goals (cases g; simp_all)
    | true =>
      simp only [Bool.not_true, Bool.false_eq_true, if_false,
        get_host_cached api g (host, port) hmeta]
      simp [hbl, hcollapse]

theorem request_redispatch_handler (api : InterceptedAPI) (g : Flow) (ehost : String)
    (u : ParsedURL) (hnd : Handler) (caps : CapList)
    (hurl : g.meta_urlparse = some u)
    (hflag : g.meta_req_passthrough = false)
    (hremap : remap_host api g true = Except.ok (ehost, g))
    (hfind : find_handler api ehost u.path RouteType.REQUEST = some (hnd, caps)) :
    request api g = liftHandlerResult (hnd g (toParams caps)) := by
  have hmu : memoUrl g = (u, g) := memoUrl_cached g u hurl
  unfold request
  simp only [hmu, hflag, Bool.false_eq_true, if_false, hremap, hfind]

theorem response_redispatch_default (api : InterceptedAPI) (g : Flow) (host : String)
    (port : Nat) (u : ParsedURL)
    (hurl : g.meta_urlparse = some u)
    (hflag : g.meta_resp_passthrough = false)
    (hmeta : g.meta_req_host = some (host, port))
    (hfind : find_handler api host u.path RouteType.RESPONSE = none)
    (hfall : api.response_passthrough = false ∨ host ∈ api.blacklist_domain)
    (hresp : g.response = some default_response) :
    response api g = Except.ok g := by
  have hmu : memoUrl g = (u, g) := memoUrl_cached g u hurl
  have hg := get_host_cached api g (host, port) hmeta
  have hcollapse : { g with response := some default_response } = g := by
    cases g
    simp_all
  unfold response
  simp only [hmu, hflag, Bool.false_eq_true, if_false, hg, hfind]
  rcases hfall with hrp | hbl
  · simp [hrp, hcollapse]
    all_goals (cases g; simp_all)
  · cases hrp : api.response_passthrough with
    | false =>
      simp [hcollapse]
      all_goals (cases g; simp_all)
    | true =>
      simp only [Bool.not_true, Bool.false_eq_true, if_false, hg]
      simp [hbl, hcollapse]
      all_goals (cases g; simp_all)

theorem response_redispatch_handler (api : InterceptedAPI) (g : Flow) (host : String)
    (port : Nat) (u : ParsedURL) (hnd : Handler) (caps : CapList)
    (hurl : g.meta_urlparse = some u)
    (hflag : g.meta_resp_passthrough = false)
    (hmeta : g.meta_req_host = some (host, port))
    (hfind : find_handler api host u.path RouteType.RESPONSE = some (hnd, caps)) :
    response api g = liftHandlerResult (hnd g (toParams caps)) := by
  have hmu : memoUrl g = (u, g) := memoUrl_cached g u hurl
  have hg := get_host_cached api g (host, port) hmeta
  unfold response
  simp only [hmu, hflag, Bool.false_eq_true, if_false, hg, hfind]

theorem req_default_branch (api : InterceptedAPI) (fl fl2 : Flow) (ehost host : String)
    (port : Nat)
    (hflag : fl.meta_req_passthrough = false)
    (hremap : remap_host api (memoUrl fl).2 true = Except.ok (ehost, fl2))
    (hfind : find_handler api ehost (memoUrl fl).1.path RouteType.REQUEST = none)
    (hfall : api.request_passthrough = false ∨
       (fl2.meta_req_host = some (host, port) ∧ host ∈ api.blacklist_domain)) :
    ∃ fl', request api fl = Except.ok fl' ∧ fl'.meta_req_passthrough = false ∧
      fl'.response = some default_response ∧ request api fl' = Except.ok fl' := by
  obtain ⟨rh, rp, hg2, hmeta, hresp, hurl, hreqp, hrespp, _⟩ :=
    remap_ok_general api (memoUrl fl).2 true ehost fl2 hremap
  have hu2 : (memoUrl fl).2.meta_urlparse = some (memoUrl fl).1 := by
    rw [memoUrl_shape fl]
  have hflagm : (memoUrl fl).2.meta_req_passthrough = false := by
    rw [memoUrl_shape fl]
    exact hflag
  have hfl2url : fl2.meta_urlparse = some (memoUrl fl).1 := by rw [hurl, hu2]
  have hfl2flag : fl2.meta_req_passthrough = false := by rw [hreqp]; exact hflagm
  refine ⟨{ fl2 with response := some default_response }, ?_, hfl2flag, rfl, ?_⟩
  · unfold request
    simp only [hflagm, Bool.false_eq_true, if_false, hremap, hfind]
    rcases hfall with hrp | ⟨hmeta2, hbl⟩
    · simp [hrp]
    · cases hrp : api.request_passthrough with
      | false => simp
      | true =>
        simp only [Bool.not_true, Bool.false_eq_true, if_false,
          get_host_cached api fl2 (host, port) hmeta2]
        simp [hbl]
  · refine request_redispatch_default api _ ehost (memoUrl fl).1 hfl2url hfl2flag
      (remap_after_update api (memoUrl fl).2 fl2 ehost (some default_response) hremap)
      hfind ?_ rfl
    rcases hfall with hrp | ⟨hmeta2, hbl⟩
    · exact Or.inl hrp
    · exact Or.inr ⟨host, port, hmeta2, hbl⟩

theorem req_handler_branch (api : InterceptedAPI) (fl fl2 : Flow) (ehost : String)
    (hnd : Handler) (caps : CapList)
    (hflag : fl.meta_req_passthrough = false)
    (hremap : remap_host api (memoUrl fl).2 true = Except.ok (ehost, fl2))
    (hfind : find_handler api ehost (memoUrl fl).1.path RouteType.REQUEST = some (hnd, caps))
    (hframe : ∀ g q, ∃ r, hnd g q = Except.ok { g with response := r }) :
    ∃ fl', request api fl = Except.ok fl' ∧ fl'.meta_req_passthrough = false ∧
      request api fl' = liftHandlerResult (hnd fl' (toParams caps)) := by
  obtain ⟨rh, rp, hg2, hmeta, hresp, hurl, hreqp, hrespp, _⟩ :=
    remap_ok_general api (memoUrl fl).2 true ehost fl2 hremap
  have hu2 : (memoUrl fl).2.meta_urlparse = some (memoUrl fl).1 := by
    rw [memoUrl_shape fl]
  have hflagm : (memoUrl fl).2.meta_req_passthrough = false := by
    rw [memoUrl_shape fl]
    exact hflag
  have hfl2url : fl2.meta_urlparse = some (memoUrl fl).1 := by rw [hurl, hu2]
  have hfl2flag : fl2.meta_req_passthrough = false := by rw [hreqp]; exact hflagm
  obtain ⟨r, hr⟩ := hframe fl2 (toParams caps)
  refine ⟨{ fl2 with response := r }, ?_, hfl2flag, ?_⟩
  · unfold request
    simp only [hflagm, Bool.false_eq_true, if_false, hremap, hfind]
    rw [hr]
    rfl
  · exact request_redispatch_handler api _ ehost (memoUrl fl).1 hnd caps hfl2url hfl2flag
      (remap_after_update api (memoUrl fl).2 fl2 ehost r hremap) hfind

theorem resp_default_branch (api : InterceptedAPI) (fl fl1 : Flow) (host : String)
    (port : Nat)
    (hflag : fl.meta_resp_passthrough = false)
    (hgh : get_host api (memoUrl fl).2 = Except.ok ((host, port), fl1))
    (hfind : find_handler api host (memoUrl fl).1.path RouteType.RESPONSE = none)
    (hfall : api.response_passthrough = false ∨ host ∈ api.blacklist_domain) :
    ∃ fl', response api fl = Except.ok fl' ∧ fl'.meta_resp_passthrough = false ∧
      fl'.response = some default_response ∧ response api fl' = Except.ok fl' := by
  have hshape := get_host_shape api (memoUrl fl).2 fl1 (host, port) hgh
  have hu2 : (memoUrl fl).2.meta_urlparse = some (memoUrl fl).1 := by
    rw [memoUrl_shape fl]
  have hflagm : (memoUrl fl).2.meta_resp_passthrough = false := by
    rw [memoUrl_shape fl]
    exact hflag
  have hfl1url : fl1.meta_urlparse = some (memoUrl fl).1 := by rw [hshape]; exact hu2
  have hfl1flag : fl1.meta_resp_passthrough = false := by rw [hshape]; exact hflagm
  have hfl1meta : fl1.meta_req_host = some (host, port) := by rw [hshape]
  refine ⟨{ fl1 with response := some default_response }, ?_, hfl1flag, rfl, ?_⟩
  · unfold response
    simp only [hflagm, Bool.false_eq_true, if_false, hgh, hfind]
    rcases hfall with hrp | hbl
    · simp [hrp]
    · cases hrp : api.response_passthrough with
      | false => simp
      | true =>
        simp only [Bool.not_true, Bool.false_eq_true, if_false,
          get_host_stable api (memoUrl fl).2 fl1 (host, port) hgh]
        simp [hbl]
  · exact response_redispatch_default api _ host port (memoUrl fl).1 hfl1url hfl1flag
      hfl1meta hfind hfall rfl

theorem resp_handler_branch (api : InterceptedAPI) (fl fl1 : Flow) (host : String)
    (port : Nat) (hnd : Handler) (caps : CapList)
    (hflag : fl.meta_resp_passthrough = false)
    (hgh : get_host api (memoUrl fl).2 = Except.ok ((host, port), fl1))
    (hfind : find_handler api host (memoUrl fl).1.path RouteType.RESPONSE = some (hnd, caps))
    (hframe : ∀ g q, ∃ r, hnd g q = Except.ok { g with response := r }) :
    ∃ fl', response api fl = Except.ok fl' ∧ fl'.meta_resp_passthrough = false ∧
      response api fl' = liftHandlerResult (hnd fl' (toParams caps)) := by
  have hshape := get_host_shape api (memoUrl fl).2 fl1 (host, port) hgh
  have hu2 : (memoUrl fl).2.meta_urlparse = some (memoUrl fl).1 := by
    rw [memoUrl_shape fl]
  have hflagm : (memoUrl fl).2.meta_resp_passthrough = false := by
    rw [memoUrl_shape fl]
    exact hflag
  have hfl1url : fl1.meta_urlparse = some (memoUrl fl).1 := by rw [hshape]; exact hu2
  have hfl1flag : fl1.meta_resp_passthrough = false := by rw [hshape]; exact hflagm
  have hfl1meta : fl1.meta_req_host = some (host, port) := by rw [hshape]
  obtain ⟨r, hr⟩ := hframe fl1 (toParams caps)
  refine ⟨{ fl1 with response := r }, ?_, hfl1flag, ?_⟩
  · unfold response
    simp only [hflagm, Bool.false_eq_true, if_false, hgh, hfind]
    rw [hr]
    rfl
  · exact response_redispatch_handler api _ host port (memoUrl fl).1 hnd caps hfl1url
      hfl1flag hfl1meta hfind

/-- Claim C10: the passthrough idempotence flag of a direction is set
only by the pass-through fallback branch.  When a handler is invoked, or
when the default response is substituted, the flag stays unset, so a
second dispatch call on the same flow and direction is not skipped: it
repeats the full handler lookup — substituting the default response
again, or invoking the (response-only-mutating) handler again with the
same captures. -/
theorem passthrough_flag_only_on_passthrough (api : InterceptedAPI) :
    (∀ fl fl2 ehost host port,
       fl.meta_req_passthrough = false →
       remap_host api (memoUrl fl).2 true = Except.ok (ehost, fl2) →
       find_handler api ehost (memoUrl fl).1.path RouteType.REQUEST = none →
       (api.request_passthrough = false ∨
         (fl2.meta_req_host = some (host, port) ∧ host ∈ api.blacklist_domain)) →
       ∃ fl', request api fl = Except.ok fl' ∧ fl'.meta_req_passthrough = false ∧
         fl'.response = some default_response ∧ request api fl' = Except.ok fl') ∧
    (∀ fl fl2 ehost hnd caps,
       fl.meta_req_passthrough = false →
       remap_host api (memoUrl fl).2 true = Except.ok (ehost, fl2) →
       find_handler api ehost (memoUrl fl).1.path RouteType.REQUEST = some (hnd, caps) →
       (∀ g q, ∃ r, hnd g q = Except.ok { g with response := r }) →
       ∃ fl', request api fl = Except.ok fl' ∧ fl'.meta_req_passthrough = false ∧
         request api fl' = liftHandlerResult (hnd fl' (toParams caps))) ∧
    (∀ fl fl1 host port,
       fl.meta_resp_passthrough = false →
       get_host api (memoUrl fl).2 = Except.ok ((host, port), fl1) →
       find_handler api host (memoUrl fl).1.path RouteType.RESPONSE = none →
       (api.response_passthrough = false ∨ host ∈ api.blacklist_domain) →
       ∃ fl', response api fl = Except.ok fl' ∧ fl'.meta_resp_passthrough = false ∧
         fl'.response = some default_response ∧ response api fl' = Except.ok fl') ∧
    (∀ fl fl1 host port hnd caps,
       fl.meta_resp_passthrough = false →
       get_host api (memoUrl fl).2 = Except.ok ((host, port), fl1) →
       find_handler api host (memoUrl fl).1.path RouteType.RESPONSE = some (hnd, caps) →
       (∀ g q, ∃ r, hnd g q = Except.ok { g with response := r }) →
       ∃ fl', response api fl = Except.ok fl' ∧ fl'.meta_resp_passthrough = false ∧
         response api fl' = liftHandlerResult (hnd fl' (toParams caps))) :=
  ⟨fun fl fl2 ehost host port => req_default_branch api fl fl2 ehost host port,
   fun fl fl2 ehost hnd caps => req_handler_branch api fl fl2 ehost hnd caps,
   fun fl fl1 host port => resp_default_branch api fl fl1 host port,
   fun fl fl1 host port hnd caps => resp_handler_branch api fl fl1 host port hnd caps⟩

/-- Witness for C10 at concrete flows: a blacklisted default-response
dispatch and a handler dispatch, in each direction; the flag stays
`false` and the second call re-dispatches. -/
theorem passthrough_flag_only_on_passthrough_witness :
    (∃ fl', request wApiBlack wFlowBad = Except.ok fl' ∧ fl'.meta_req_passthrough = false ∧
       fl'.response = some default_response ∧ request wApiBlack fl' = Except.ok fl') ∧
    (∃ fl', request wApiAuth wFlowAuth = Except.ok fl' ∧ fl'.meta_req_passthrough = false ∧
       request wApiAuth fl' = liftHandlerResult (wHndAuth fl' (toParams wCapsAuth))) ∧
    (∃ fl', response wApiBlack wFlowBad = Except.ok fl' ∧ fl'.meta_resp_passthrough = false ∧
       fl'.response = some default_response ∧ response wApiBlack fl' = Except.ok fl') ∧
    (∃ fl', response wApiAuthResp wFlowAuth = Except.ok fl' ∧
       fl'.meta_resp_passthrough = false ∧
       response wApiAuthResp fl' = liftHandlerResult (wHndAuth fl' (toParams wCapsAuth))) :=
  ⟨(passthrough_flag_only_on_passthrough wApiBlack).1 wFlowBad wFlowBadMemo "bad.example"
      "bad.example" 80 (by rfl) (by rfl) (by rfl) (Or.inr ⟨by rfl, by decide⟩),
   (passthrough_flag_only_on_passthrough wApiAuth).2.1 wFlowAuth wFlowAuthMemo "example.com"
      wHndAuth wCapsAuth (by rfl) (by rfl) (by rfl)
      (fun g q => ⟨some (error_response "auth"), rfl⟩),
   (passthrough_flag_only_on_passthrough wApiBlack).2.2.1 wFlowBad wFlowBadMemo "bad.example"
      80 (by rfl) (by rfl) (by rfl) (Or.inr (by decide)),
   (passthrough_flag_only_on_passthrough wApiAuthResp).2.2.2 wFlowAuth wFlowAuthMemo
      "example.com" 80 wHndAuth wCapsAuth (by rfl) (by rfl) (by rfl)
      (fun g q => ⟨some (error_response "auth"), rfl⟩)⟩

end Xepor
